import Mathlib

/-!
Verification of the finks single-host deployment orchestrator.

This file gives a shallow embedding of the core reconciliation logic:
the Traefik label generator (`internal/traefik/labels.go`, `proxy`
package), the deployment reconciler (`internal/app/manager.go`), the
Docker client adapter (`internal/docker`), and the network provisioner
(`docker.Client.EnsureNetwork`).  Go maps are modelled as association
lists with replace-or-append assignment; the Docker daemon's responses
are modelled by explicit outcome flags on a world state.  Machine
strings are Lean `String`s; `strings.ToLower` is modelled per-character
with ASCII lowering (the only case the proved properties depend on,
since every sanitized alphabet and status indicator involved is ASCII).
-/

namespace Finks

/-- Go map read `m[k]` over an association list: first binding wins. -/
def lookupA {α : Type} (m : List (String × α)) (k : String) : Option α :=
  (m.find? (fun p => p.1 = k)).map (fun p => p.2)

/-- Go map assignment `m[k] = v`: replace an existing binding in place,
otherwise append a new binding. -/
def insertA {α : Type} (m : List (String × α)) (k : String) (v : α) :
    List (String × α) :=
  if (m.find? (fun p => p.1 = k)).isSome then
    m.map (fun p => if p.1 = k then (k, v) else p)
  else
    m ++ [(k, v)]

/-- Go map deletion `delete(m, k)`. -/
def eraseA {α : Type} (m : List (String × α)) (k : String) :
    List (String × α) :=
  m.filter (fun p => ¬ p.1 = k)

/-- Go map membership test `_, ok := m[k]`. -/
def hasKeyA {α : Type} (m : List (String × α)) (k : String) : Bool :=
  m.any (fun p => p.1 = k)

theorem find?_replace_ne {α : Type} (m : List (String × α)) (k : String) (v : α)
    (k' : String) (h : ¬ k' = k) :
    (m.map (fun p => if p.1 = k then (k, v) else p)).find? (fun p => p.1 = k')
      = m.find? (fun p => p.1 = k') := by
  induction m with
  | nil => rfl
  | cons q m ih =>
    simp only [List.map_cons]
    by_cases hq : q.1 = k
    · rw [if_pos hq]
      rw [List.find?_cons_of_neg _
          (by simp only [decide_eq_true_eq]; exact fun e => h e.symm),
        List.find?_cons_of_neg _
          (by simp only [decide_eq_true_eq, hq]; exact fun e => h e.symm)]
      exact ih
    · rw [if_neg hq]
      by_cases hq' : q.1 = k'
      · rw [List.find?_cons_of_pos _ (by simp [hq']),
          List.find?_cons_of_pos _ (by simp [hq'])]
      · rw [List.find?_cons_of_neg _ (by simp [hq']),
          List.find?_cons_of_neg _ (by simp [hq'])]
        exact ih

theorem find?_replace_self {α : Type} (m : List (String × α)) (k : String) (v : α)
    (h : (m.find? (fun p => p.1 = k)).isSome) :
    (m.map (fun p => if p.1 = k then (k, v) else p)).find? (fun p => p.1 = k)
      = some (k, v) := by
  induction m with
  | nil => simp [List.find?] at h
  | cons q m ih =>
    simp only [List.map_cons]
    by_cases hq : q.1 = k
    · rw [if_pos hq, List.find?_cons_of_pos _ (by simp)]
    · rw [if_neg hq, List.find?_cons_of_neg _ (by simp [hq])]
      apply ih
      rw [List.find?_cons_of_neg _ (by simp [hq])] at h
      exact h

theorem lookupA_insertA {α : Type} (m : List (String × α)) (k : String) (v : α)
    (k' : String) :
    lookupA (insertA m k v) k' = if k' = k then some v else lookupA m k' := by
  unfold lookupA insertA
  by_cases hmem : (m.find? (fun p => p.1 = k)).isSome
  · rw [if_pos hmem]
    by_cases hk : k' = k
    · subst hk
      rw [if_pos rfl, find?_replace_self m k' v hmem]
      rfl
    · rw [if_neg hk, find?_replace_ne m k v k' hk]
  · rw [if_neg hmem, List.find?_append]
    by_cases hk : k' = k
    · subst hk
      rw [Option.not_isSome_iff_eq_none] at hmem
      rw [hmem, if_pos rfl]
      simp [List.find?]
    · rw [if_neg hk]
      cases hfind : m.find? (fun p => p.1 = k') with
      | some p => simp
      | none =>
        have hkk : decide (k = k') = false := by
          simp only [decide_eq_false_iff_not]
          exact fun e => hk e.symm
        simp [List.find?, hkk]

end Finks

namespace Finks

/-! ## Name sanitization (`sanitizeName` in the proxy package,
`sanitizeRouterName` in `internal/traefik/labels.go`; both bodies are
identical). -/

/-- `strings.ReplaceAll(name, "_", "-")`, per character. -/
def replaceUnderscore (c : Char) : Char := if c = '_' then '-' else c

/-- `strings.ReplaceAll(name, " ", "-")`, per character. -/
def replaceSpace (c : Char) : Char := if c = ' ' then '-' else c

/-- The character class kept by the sanitizer: `[a-z0-9-]`. -/
def keepChar (c : Char) : Bool :=
  ('a' ≤ c && c ≤ 'z') || ('0' ≤ c && c ≤ '9') || c = '-'

/-- `sanitizeName` / `sanitizeRouterName`: replace `_` and space with
`-`, lowercase, then keep only `[a-z0-9-]`.  `strings.ToLower` is
modelled with ASCII `Char.toLower`; on the retained alphabet the two
agree. -/
def sanitizeName (name : String) : String :=
  ⟨(((name.data.map replaceUnderscore).map replaceSpace).map
      Char.toLower).filter keepChar⟩

theorem keepChar_fixed_replaceUnderscore {c : Char} (h : keepChar c = true) :
    replaceUnderscore c = c := by
  unfold replaceUnderscore
  unfold keepChar at h
  by_cases hc : c = '_'
  · subst hc; simp at h
  · simp [hc]

theorem keepChar_fixed_replaceSpace {c : Char} (h : keepChar c = true) :
    replaceSpace c = c := by
  unfold replaceSpace
  unfold keepChar at h
  by_cases hc : c = ' '
  · subst hc; simp at h
  · simp [hc]

theorem keepChar_fixed_toLower {c : Char} (h : keepChar c = true) :
    Char.toLower c = c := by
  unfold keepChar at h
  simp only [Bool.or_eq_true, Bool.and_eq_true, decide_eq_true_eq] at h
  have hnot : ¬ (65 ≤ c.toNat ∧ c.toNat ≤ 90) := by
    rcases h with (⟨h1, h2⟩ | ⟨h1, h2⟩) | h1
    · have ha : 97 ≤ c.toNat := by
        simp [Char.le_def] at h1
        exact h1
      omega
    · have hb : c.toNat ≤ 57 := by
        simp [Char.le_def] at h2
        exact h2
      omega
    · subst h1
      decide
  rw [Char.toLower]
  simp only [ge_iff_le]
  rw [if_neg hnot]

theorem map_id_of_forall_mem {α : Type} {f : α → α} :
    ∀ (l : List α), (∀ c ∈ l, f c = c) → l.map f = l
  | [], _ => rfl
  | a :: t, h => by
    simp only [List.map_cons, h a (List.mem_cons_self a t)]
    rw [map_id_of_forall_mem t (fun c hc => h c (List.mem_cons_of_mem a hc))]

/-- **C6.** The name-sanitization function (lowercase, replace
underscore and space with hyphen, drop every character outside
`[a-z0-9-]`) is idempotent: `sanitize(sanitize(x)) = sanitize(x)` for
every input string. -/
theorem sanitizeName_idempotent (x : String) :
    sanitizeName (sanitizeName x) = sanitizeName x := by
  unfold sanitizeName
  apply congrArg
  set l := (((x.data.map replaceUnderscore).map replaceSpace).map
      Char.toLower).filter keepChar with hl
  have hkeep : ∀ c ∈ l, keepChar c = true := by
    intro c hc
    rw [hl] at hc
    exact (List.mem_filter.mp hc).2
  have h1 : l.map replaceUnderscore = l :=
    map_id_of_forall_mem l (fun c hc => keepChar_fixed_replaceUnderscore (hkeep c hc))
  have h2 : l.map replaceSpace = l :=
    map_id_of_forall_mem l (fun c hc => keepChar_fixed_replaceSpace (hkeep c hc))
  have h3 : l.map Char.toLower = l :=
    map_id_of_forall_mem l (fun c hc => keepChar_fixed_toLower (hkeep c hc))
  show ((((String.mk l).data.map replaceUnderscore).map replaceSpace).map
      Char.toLower).filter keepChar = l
  rw [show (String.mk l).data = l from rfl, h1, h2, h3]
  exact List.filter_eq_self.mpr hkeep

/-! ## Domain validation (`ValidateDomain` in `internal/traefik/labels.go`). -/

/-- `ValidateDomain`: `none` means the domain is accepted, `some msg` is
the returned error.  `strings.Contains(domain, " ")` scans for the space
character only; `strings.HasPrefix(domain, ".")` / `HasSuffix` test the
first / last character (`.` is a single UTF-8 byte); `len(domain)` is
the UTF-8 byte length of a Go string. -/
def validateDomain (domain : String) : Option String :=
  if domain = "" then some "domain cannot be empty"
  else if domain.data.contains ' ' then some "domain cannot contain spaces"
  else if domain.data.head? = some '.' ∨ domain.data.getLast? = some '.' then
    some "domain cannot start or end with a dot"
  else if 253 < domain.utf8ByteSize then
    some "domain is too long (max 253 characters)"
  else none

/-- The rejection condition exactly as claim C7 words it: empty, embedded
whitespace, leading or trailing dot, or more than 253 characters. -/
def claimRejectsDomain (domain : String) : Bool :=
  decide (domain = "") || domain.data.any (fun c => c.isWhitespace)
    || decide (domain.data.head? = some '.')
    || decide (domain.data.getLast? = some '.')
    || decide (253 < domain.data.length)

/-- **C7 counterexample.** The domain `"a\tb"` contains embedded
whitespace (a tab), so the claim says the validator rejects it; the
validator scans only for the space character and accepts it. -/
theorem validateDomain_accepts_embedded_tab :
    validateDomain "a\tb" = none ∧ claimRejectsDomain "a\tb" = true := by
  constructor
  · decide
  · decide

/-- **C7 (amended).** The upstream domain validator rejects (returns an
error for) exactly the domains that are empty, contain a space
character, begin or end with a dot, or whose UTF-8 byte length exceeds
253, and accepts all others. -/
theorem validateDomain_isSome_iff (domain : String) :
    (validateDomain domain).isSome = true ↔
      (domain = "" ∨ domain.data.contains ' ' = true
        ∨ domain.data.head? = some '.' ∨ domain.data.getLast? = some '.'
        ∨ 253 < domain.utf8ByteSize) := by
  unfold validateDomain
  repeat' split
  all_goals simp_all
  all_goals tauto

/-! ## Traefik label generation (`GenerateTraefikLabels` in the `proxy`
package; `GenerateLabels` in `internal/traefik/labels.go` is the same
algorithm with the entrypoint names behind constants). -/

def defaultNetworkName : String := "finks-default"

structure TraefikConfig where
  AppName : String
  Domain : String
  Port : String
  NetworkName : String
  LocalMode : Bool

/-- `GenerateTraefikLabels`: the Traefik label map built by successive Go
map assignments, modelled with `insertA` over an initially empty
association list. -/
def generateTraefikLabels (config : TraefikConfig) : List (String × String) :=
  let routerName := sanitizeName config.AppName
  let serviceName := sanitizeName config.AppName
  let networkName := if config.NetworkName = "" then defaultNetworkName
    else config.NetworkName
  let l0 : List (String × String) := []
  let l1 := insertA l0 "traefik.enable" "true"
  let l2 := insertA l1 "traefik.docker.network" networkName
  let l3 := insertA l2 ("traefik.http.routers." ++ routerName ++ ".rule")
      ("Host(`" ++ config.Domain ++ "`)")
  let l4 := insertA l3 ("traefik.http.routers." ++ routerName ++ ".service")
      serviceName
  let l5 := if config.Port = "" then l4 else
    insertA l4 ("traefik.http.services." ++ serviceName ++ ".loadbalancer.server.port")
      config.Port
  if config.LocalMode then
    insertA l5 ("traefik.http.routers." ++ routerName ++ ".entrypoints") "web"
  else
    let l6 := insertA l5 ("traefik.http.routers." ++ routerName ++ ".entrypoints")
        "websecure"
    let l7 := insertA l6 ("traefik.http.routers." ++ routerName ++ ".tls") "true"
    let l8 := insertA l7 ("traefik.http.routers." ++ routerName ++ ".tls.certresolver")
        "letsencrypt"
    let redirectRouter := routerName ++ "-redirect"
    let l9 := insertA l8 ("traefik.http.routers." ++ redirectRouter ++ ".rule")
        ("Host(`" ++ config.Domain ++ "`)")
    let l10 := insertA l9 ("traefik.http.routers." ++ redirectRouter ++ ".entrypoints")
        "web"
    let l11 := insertA l10 ("traefik.http.routers." ++ redirectRouter ++ ".middlewares")
        "https-redirect"
    let l12 := insertA l11
        "traefik.http.middlewares.https-redirect.redirectscheme.scheme" "https"
    insertA l12
      "traefik.http.middlewares.https-redirect.redirectscheme.permanent" "true"

/-- `strings.HasSuffix s t`: `s` ends with `t`. -/
def endsWithStr (s t : String) : Bool := t.data.isSuffixOf s.data

theorem append2_ne_of_index {p t : String} (r s : String) {i : Nat} {c₁ c₂ : Char}
    (hip : p.data.get? i = some c₁) (hit : t.data.get? i = some c₂)
    (hne : ¬ c₁ = c₂) : ¬ (p ++ r ++ s = t) := by
  intro h
  have hi : i < p.data.length := by
    by_contra hge
    rw [List.get?_eq_none.mpr (Nat.le_of_not_lt hge)] at hip
    exact Option.noConfusion hip
  have hget : (p ++ r ++ s).data.get? i = some c₁ := by
    rw [String.data_append, String.data_append]
    rw [List.get?_append (by rw [List.length_append]; omega), List.get?_append hi]
    exact hip
  rw [h, hit] at hget
  exact hne (Option.some.inj hget).symm

theorem append_right_ne (x : String) {s t : String} (h : ¬ s = t) :
    ¬ (x ++ s = x ++ t) := by
  intro he
  apply h
  apply String.ext
  have hd := congrArg String.data he
  rw [String.data_append, String.data_append] at hd
  exact List.append_cancel_left hd

theorem suffix_append_iff_of_le {α : Type} {t x s : List α}
    (h : t.length ≤ s.length) : t <:+ x ++ s ↔ t <:+ s := by
  constructor
  · rintro ⟨u, hu⟩
    have hlen : u.length + t.length = x.length + s.length := by
      have hl := congrArg List.length hu
      simpa using hl
    have hd : (u ++ t).drop u.length = t := List.drop_left u t
    rw [hu] at hd
    have h2 : u.length = x.length + (u.length - x.length) := by omega
    rw [h2, ← List.drop_drop, List.drop_left] at hd
    rw [← hd]
    exact List.drop_suffix _ _
  · rintro ⟨u, hu⟩
    exact ⟨x ++ u, by rw [List.append_assoc, hu]⟩

theorem endsWith_append_of_le {x s t : String}
    (h : t.data.length ≤ s.data.length) :
    endsWithStr (x ++ s) t = endsWithStr s t := by
  unfold endsWithStr
  rw [String.data_append, Bool.eq_iff_iff]
  simp only [List.isSuffixOf_iff_suffix]
  exact suffix_append_iff_of_le h

theorem endsWith_append_false {x s t : String}
    (hlen : s.data.length ≤ t.data.length) (h : ¬ s.data <:+ t.data) :
    endsWithStr (x ++ s) t = false := by
  unfold endsWithStr
  rw [String.data_append, Bool.eq_false_iff]
  intro hb
  have hsuf : t.data <:+ x.data ++ s.data := List.isSuffixOf_iff_suffix.mp hb
  have hs2 : s.data <:+ x.data ++ s.data := List.suffix_append x.data s.data
  exact h (List.suffix_of_suffix_length_le hs2 hsuf hlen)

theorem mem_insertA {α : Type} {p : String × α} {m : List (String × α)}
    {k : String} {v : α} (h : p ∈ insertA m k v) : p ∈ m ∨ p = (k, v) := by
  unfold insertA at h
  split at h
  · rw [List.mem_map] at h
    obtain ⟨q, hq, hpq⟩ := h
    by_cases hk : q.1 = k
    · right
      rw [← hpq, if_pos hk]
    · left
      rw [← hpq, if_neg hk]
      exact hq
  · rw [List.mem_append] at h
    rcases h with h | h
    · exact Or.inl h
    · exact Or.inr (by simpa using h)

/-- **C5.** For every app name, domain and port, label generation in
Local mode emits no TLS label, no certificate-resolver label and no
redirect-router label (no emitted key ends in `.tls`, `.certresolver`
or `.middlewares`, and the two scheme-redirect middleware keys are
absent), while Managed mode emits exactly one redirect router — bound
to the plaintext entrypoint `web`, matching the same domain, and
referencing the `https-redirect` middleware — plus the two constant
redirect-middleware labels whose values are literals identical across
apps. -/
theorem generateTraefikLabels_mode_spec (name domain port network : String) :
    (∀ p ∈ generateTraefikLabels ⟨name, domain, port, network, true⟩,
        endsWithStr p.1 ".tls" = false ∧ endsWithStr p.1 ".certresolver" = false ∧
        endsWithStr p.1 ".middlewares" = false) ∧
    lookupA (generateTraefikLabels ⟨name, domain, port, network, true⟩)
        "traefik.http.middlewares.https-redirect.redirectscheme.scheme" = none ∧
    lookupA (generateTraefikLabels ⟨name, domain, port, network, true⟩)
        "traefik.http.middlewares.https-redirect.redirectscheme.permanent" = none ∧
    lookupA (generateTraefikLabels ⟨name, domain, port, network, false⟩)
        ("traefik.http.routers." ++ (sanitizeName name ++ "-redirect") ++ ".rule")
        = some ("Host(`" ++ domain ++ "`)") ∧
    lookupA (generateTraefikLabels ⟨name, domain, port, network, false⟩)
        ("traefik.http.routers." ++ (sanitizeName name ++ "-redirect") ++ ".entrypoints")
        = some "web" ∧
    lookupA (generateTraefikLabels ⟨name, domain, port, network, false⟩)
        ("traefik.http.routers." ++ (sanitizeName name ++ "-redirect") ++ ".middlewares")
        = some "https-redirect" ∧
    (∀ p ∈ generateTraefikLabels ⟨name, domain, port, network, false⟩,
        endsWithStr p.1 ".middlewares" = true →
        p.1 = "traefik.http.routers." ++ (sanitizeName name ++ "-redirect") ++ ".middlewares") ∧
    lookupA (generateTraefikLabels ⟨name, domain, port, network, false⟩)
        "traefik.http.middlewares.https-redirect.redirectscheme.scheme" = some "https" ∧
    lookupA (generateTraefikLabels ⟨name, domain, port, network, false⟩)
        "traefik.http.middlewares.https-redirect.redirectscheme.permanent" = some "true" := by
  have hr13 : ("traefik.http.routers.").data.get? 13 = some 'r' := by decide
  have hs13 : ("traefik.http.services.").data.get? 13 = some 's' := by decide
  have hm13s : ("traefik.http.middlewares.https-redirect.redirectscheme.scheme").data.get? 13
      = some 'm' := by decide
  have hm13p : ("traefik.http.middlewares.https-redirect.redirectscheme.permanent").data.get? 13
      = some 'm' := by decide
  refine ⟨?_, ?_, ?_, ?_, ?_, ?_, ?_, ?_, ?_⟩
  · -- local: every key avoids .tls/.certresolver/.middlewares suffixes
    intro p hp
    simp only [generateTraefikLabels, if_true] at hp
    rcases mem_insertA hp with hp | rfl
    rotate_left
    · refine ⟨?_, ?_, ?_⟩ <;> dsimp only <;>
        first
          | decide
          | (rw [endsWith_append_of_le (by decide)]; decide)
          | exact endsWith_append_false (by decide) (by decide)
    by_cases hport : port = ""
    · rw [if_pos hport] at hp
      rcases mem_insertA hp with hp | rfl
      rotate_left
      · refine ⟨?_, ?_, ?_⟩ <;> dsimp only <;>
          first
            | decide
            | (rw [endsWith_append_of_le (by decide)]; decide)
            | exact endsWith_append_false (by decide) (by decide)
      rcases mem_insertA hp with hp | rfl
      rotate_left
      · refine ⟨?_, ?_, ?_⟩ <;> dsimp only <;>
          first
            | decide
            | (rw [endsWith_append_of_le (by decide)]; decide)
            | exact endsWith_append_false (by decide) (by decide)
      rcases mem_insertA hp with hp | rfl
      rotate_left
      · refine ⟨?_, ?_, ?_⟩ <;> dsimp only <;>
          first
            | decide
            | (rw [endsWith_append_of_le (by decide)]; decide)
            | exact endsWith_append_false (by decide) (by decide)
      rcases mem_insertA hp with hp | rfl
      rotate_left
      · refine ⟨?_, ?_, ?_⟩ <;> dsimp only <;> decide
      simp at hp
    · rw [if_neg hport] at hp
      rcases mem_insertA hp with hp | rfl
      rotate_left
      · refine ⟨?_, ?_, ?_⟩ <;> dsimp only <;>
          first
            | decide
            | (rw [endsWith_append_of_le (by decide)]; decide)
            | exact endsWith_append_false (by decide) (by decide)
      rcases mem_insertA hp with hp | rfl
      rotate_left
      · refine ⟨?_, ?_, ?_⟩ <;> dsimp only <;>
          first
            | decide
            | (rw [endsWith_append_of_le (by decide)]; decide)
            | exact endsWith_append_false (by decide) (by decide)
      rcases mem_insertA hp with hp | rfl
      rotate_left
      · refine ⟨?_, ?_, ?_⟩ <;> dsimp only <;>
          first
            | decide
            | (rw [endsWith_append_of_le (by decide)]; decide)
            | exact endsWith_append_false (by decide) (by decide)
      rcases mem_insertA hp with hp | rfl
      rotate_left
      · refine ⟨?_, ?_, ?_⟩ <;> dsimp only <;>
          first
            | decide
            | (rw [endsWith_append_of_le (by decide)]; decide)
            | exact endsWith_append_false (by decide) (by decide)
      rcases mem_insertA hp with hp | rfl
      rotate_left
      · refine ⟨?_, ?_, ?_⟩ <;> dsimp only <;> decide
      simp at hp
  · -- local: scheme middleware key absent
    simp only [generateTraefikLabels, if_true]
    rw [lookupA_insertA,
      if_neg (Ne.symm (append2_ne_of_index _ _ hr13 hm13s (by decide)))]
    by_cases hport : port = ""
    · rw [if_pos hport]
      rw [lookupA_insertA,
        if_neg (Ne.symm (append2_ne_of_index _ _ hr13 hm13s (by decide)))]
      rw [lookupA_insertA,
        if_neg (Ne.symm (append2_ne_of_index _ _ hr13 hm13s (by decide)))]
      rw [lookupA_insertA, if_neg (by decide)]
      rw [lookupA_insertA, if_neg (by decide)]
      rfl
    · rw [if_neg hport]
      rw [lookupA_insertA,
        if_neg (Ne.symm (append2_ne_of_index _ _ hs13 hm13s (by decide)))]
      rw [lookupA_insertA,
        if_neg (Ne.symm (append2_ne_of_index _ _ hr13 hm13s (by decide)))]
      rw [lookupA_insertA,
        if_neg (Ne.symm (append2_ne_of_index _ _ hr13 hm13s (by decide)))]
      rw [lookupA_insertA, if_neg (by decide)]
      rw [lookupA_insertA, if_neg (by decide)]
      rfl
  · -- local: permanent middleware key absent
    simp only [generateTraefikLabels, if_true]
    rw [lookupA_insertA,
      if_neg (Ne.symm (append2_ne_of_index _ _ hr13 hm13p (by decide)))]
    by_cases hport : port = ""
    · rw [if_pos hport]
      rw [lookupA_insertA,
        if_neg (Ne.symm (append2_ne_of_index _ _ hr13 hm13p (by decide)))]
      rw [lookupA_insertA,
        if_neg (Ne.symm (append2_ne_of_index _ _ hr13 hm13p (by decide)))]
      rw [lookupA_insertA, if_neg (by decide)]
      rw [lookupA_insertA, if_neg (by decide)]
      rfl
    · rw [if_neg hport]
      rw [lookupA_insertA,
        if_neg (Ne.symm (append2_ne_of_index _ _ hs13 hm13p (by decide)))]
      rw [lookupA_insertA,
        if_neg (Ne.symm (append2_ne_of_index _ _ hr13 hm13p (by decide)))]
      rw [lookupA_insertA,
        if_neg (Ne.symm (append2_ne_of_index _ _ hr13 hm13p (by decide)))]
      rw [lookupA_insertA, if_neg (by decide)]
      rw [lookupA_insertA, if_neg (by decide)]
      rfl
  · -- managed: redirect router rule
    simp only [generateTraefikLabels, Bool.false_eq_true, if_false]
    rw [lookupA_insertA,
      if_neg (append2_ne_of_index _ _ hr13 hm13p (by decide))]
    rw [lookupA_insertA,
      if_neg (append2_ne_of_index _ _ hr13 hm13s (by decide))]
    rw [lookupA_insertA, if_neg (append_right_ne _ (by decide))]
    rw [lookupA_insertA, if_neg (append_right_ne _ (by decide))]
    rw [lookupA_insertA, if_pos rfl]
  · -- managed: redirect router entrypoints
    simp only [generateTraefikLabels, Bool.false_eq_true, if_false]
    rw [lookupA_insertA,
      if_neg (append2_ne_of_index _ _ hr13 hm13p (by decide))]
    rw [lookupA_insertA,
      if_neg (append2_ne_of_index _ _ hr13 hm13s (by decide))]
    rw [lookupA_insertA, if_neg (append_right_ne _ (by decide))]
    rw [lookupA_insertA, if_pos rfl]
  · -- managed: redirect router middlewares
    simp only [generateTraefikLabels, Bool.false_eq_true, if_false]
    rw [lookupA_insertA,
      if_neg (append2_ne_of_index _ _ hr13 hm13p (by decide))]
    rw [lookupA_insertA,
      if_neg (append2_ne_of_index _ _ hr13 hm13s (by decide))]
    rw [lookupA_insertA, if_pos rfl]
  · -- managed: the only .middlewares-suffixed key is the redirect router's
    intro p hp
    simp only [generateTraefikLabels, Bool.false_eq_true, if_false] at hp
    rcases mem_insertA hp with hp | rfl
    rotate_left
    · dsimp only
      intro hEnds
      exact absurd hEnds (by decide)
    rcases mem_insertA hp with hp | rfl
    rotate_left
    · dsimp only
      intro hEnds
      exact absurd hEnds (by decide)
    rcases mem_insertA hp with hp | rfl
    rotate_left
    · dsimp only
      intro _
      rfl
    rcases mem_insertA hp with hp | rfl
    rotate_left
    · dsimp only
      intro hEnds
      rw [endsWith_append_false (by decide) (by decide)] at hEnds
      exact absurd hEnds (by decide)
    rcases mem_insertA hp with hp | rfl
    rotate_left
    · dsimp only
      intro hEnds
      rw [endsWith_append_false (by decide) (by decide)] at hEnds
      exact absurd hEnds (by decide)
    rcases mem_insertA hp with hp | rfl
    rotate_left
    · dsimp only
      intro hEnds
      rw [endsWith_append_of_le (by decide)] at hEnds
      exact absurd hEnds (by decide)
    rcases mem_insertA hp with hp | rfl
    rotate_left
    · dsimp only
      intro hEnds
      rw [endsWith_append_false (by decide) (by decide)] at hEnds
      exact absurd hEnds (by decide)
    rcases mem_insertA hp with hp | rfl
    rotate_left
    · dsimp only
      intro hEnds
      rw [endsWith_append_false (by decide) (by decide)] at hEnds
      exact absurd hEnds (by decide)
    by_cases hport : port = ""
    · rw [if_pos hport] at hp
      rcases mem_insertA hp with hp | rfl
      rotate_left
      · dsimp only
        intro hEnds
        rw [endsWith_append_false (by decide) (by decide)] at hEnds
        exact absurd hEnds (by decide)
      rcases mem_insertA hp with hp | rfl
      rotate_left
      · dsimp only
        intro hEnds
        rw [endsWith_append_false (by decide) (by decide)] at hEnds
        exact absurd hEnds (by decide)
      rcases mem_insertA hp with hp | rfl
      rotate_left
      · dsimp only
        intro hEnds
        exact absurd hEnds (by decide)
      rcases mem_insertA hp with hp | rfl
      rotate_left
      · dsimp only
        intro hEnds
        exact absurd hEnds (by decide)
      simp at hp
    · rw [if_neg hport] at hp
      rcases mem_insertA hp with hp | rfl
      rotate_left
      · dsimp only
        intro hEnds
        rw [endsWith_append_of_le (by decide)] at hEnds
        exact absurd hEnds (by decide)
      rcases mem_insertA hp with hp | rfl
      rotate_left
      · dsimp only
        intro hEnds
        rw [endsWith_append_false (by decide) (by decide)] at hEnds
        exact absurd hEnds (by decide)
      rcases mem_insertA hp with hp | rfl
      rotate_left
      · dsimp only
        intro hEnds
        rw [endsWith_append_false (by decide) (by decide)] at hEnds
        exact absurd hEnds (by decide)
      rcases mem_insertA hp with hp | rfl
      rotate_left
      · dsimp only
        intro hEnds
        exact absurd hEnds (by decide)
      rcases mem_insertA hp with hp | rfl
      rotate_left
      · dsimp only
        intro hEnds
        exact absurd hEnds (by decide)
      simp at hp
  · -- managed: scheme middleware constant
    simp only [generateTraefikLabels, Bool.false_eq_true, if_false]
    rw [lookupA_insertA, if_neg (by decide), lookupA_insertA, if_pos rfl]
  · -- managed: permanent middleware constant
    simp only [generateTraefikLabels, Bool.false_eq_true, if_false]
    rw [lookupA_insertA, if_pos rfl]

/-! ## Container runtime world and the Docker client adapter
(`internal/docker/client.go`, SDK variant). -/

/-- A container as reported by `ListContainers` (leading slashes on
names are already stripped by the adapter). -/
structure Container where
  Name : String
  Image : String
  Status : String
  Ports : String
deriving DecidableEq

/-- The observable container list together with the daemon's responses
to the calls one operation makes.  Each `…Ok` flag is the outcome of
the corresponding external daemon call; the adapter surfaces daemon
errors verbatim. -/
structure DockerWorld where
  containers : List Container
  pingOk : Bool
  listOk : Bool
  pullOk : Bool
  portSpecOk : Bool
  createOk : Bool
  startOk : Bool
  removeOk : Bool
deriving DecidableEq

inductive DockerErr where
  | unavailable
  | listFailed
  | invalidPort
  | createFailed
  | startFailed
  | startAndCleanupFailed
  | pullFailed
  | removeFailed
deriving DecidableEq

/-- `RunOptions` as populated by `Manager.DeployApp`: one port-mapping
spec string, environment variables, volume binds. -/
structure RunOptions where
  Name : String
  Image : String
  Port : String
  EnvVars : List (String × String)
  Volumes : List String

/-- `Client.ContainerExists`: scan the full container list for an exact
name match. -/
def containerExists (cs : List Container) (name : String) : Bool :=
  cs.any (fun c => c.Name = name)

/-- `strings.Contains(strings.ToLower(status), "exited")`. -/
def statusIndicatesExited (status : String) : Bool :=
  decide (("exited".data) <:+: (status.data.map Char.toLower))

/-- `Client.RunContainer`: parse the port spec, create the container,
start it; on a start failure remove the just-created container before
returning the start error, and report a cleanup failure together with
the start error. -/
def runContainer (w : DockerWorld) (opts : RunOptions) :
    DockerWorld × Option DockerErr :=
  if opts.Port ≠ "" ∧ w.portSpecOk = false then (w, some .invalidPort)
  else if w.createOk = false then (w, some .createFailed)
  else
    let created : Container :=
      { Name := opts.Name, Image := opts.Image,
        Status := "Created", Ports := opts.Port }
    if w.startOk then
      ({ w with containers := w.containers ++ [{ created with Status := "Up" }] },
       none)
    else if w.removeOk then
      (w, some .startFailed)
    else
      ({ w with containers := w.containers ++ [created] },
       some .startAndCleanupFailed)

/-! ## Deployment reconciler (`internal/app/manager.go`). -/

/-- An application record (`App` in `internal/app/types.go`); the
`time.Time` stamps are abstract instants. -/
structure App where
  Name : String
  Image : String
  Port : String
  EnvVars : List (String × String)
  Volumes : List String
  Status : String
  CreatedAt : Nat
  UpdatedAt : Nat
deriving DecidableEq

def statusRunning : String := "running"

def statusStopped : String := "stopped"

def statusFailed : String := "failed"

def statusUnknown : String := "unknown"

/-- The manager's registry: the in-memory `config.Apps` map and the
persisted `apps.json` content; `saveConfig` rewrites the document in
full, modelled as copying the in-memory map. -/
structure ManagerState where
  apps : List (String × App)
  saved : List (String × App)
deriving DecidableEq

inductive AppErr where
  | dockerUnavailable
  | existsCheckFailed
  | alreadyExists
  | imagePullFailed
  | runFailed (e : DockerErr)
  | notFound
  | removeFailed
  | listFailed
deriving DecidableEq

/-- `Manager.DeployApp`: availability probe, live-runtime existence
check under the derived `finks-` identifier, image pull,
create-and-start, then registry insert and persist. -/
def deployApp (st : ManagerState) (w : DockerWorld) (now : Nat)
    (name image port : String) (envVars : List (String × String))
    (volumes : List String) : ManagerState × DockerWorld × Option AppErr :=
  if w.pingOk = false then (st, w, some .dockerUnavailable)
  else
    let containerName := "finks-" ++ name
    if w.listOk = false then (st, w, some .existsCheckFailed)
    else if containerExists w.containers containerName then
      (st, w, some .alreadyExists)
    else if w.pullOk = false then (st, w, some .imagePullFailed)
    else
      let runOpts : RunOptions :=
        { Name := containerName, Image := image, Port := port,
          EnvVars := envVars, Volumes := volumes }
      match runContainer w runOpts with
      | (w1, some e) => (st, w1, some (.runFailed e))
      | (w1, none) =>
        let app : App :=
          { Name := name, Image := image, Port := port, EnvVars := envVars,
            Volumes := volumes, Status := statusRunning,
            CreatedAt := now, UpdatedAt := now }
        let apps1 := insertA st.apps name app
        ({ apps := apps1, saved := apps1 }, w1, none)

/-- `strings.CutPrefix`. -/
def cutPrefix (s pre : String) : Option String :=
  if pre.data.isPrefixOf s.data then some ⟨s.data.drop pre.data.length⟩
  else none

/-- One step of the status-map loop in `ListApps`: if the container
name carries the `finks-` identifier, record Running or Stopped keyed
by the stripped name (overwriting like the Go map assignment);
otherwise skip the container. -/
def statusStep (acc : List (String × String)) (c : Container) :
    List (String × String) :=
  match cutPrefix c.Name "finks-" with
  | some appName =>
    insertA acc appName
      (if statusIndicatesExited c.Status then statusStopped else statusRunning)
  | none => acc

/-- The status map built by `ListApps` over the live container list. -/
def containerStatuses (cs : List Container) : List (String × String) :=
  cs.foldl statusStep []

/-- `Manager.ListApps`: reconcile every registry entry's status against
the live container list (Unknown when no matching container exists),
refresh its timestamp, persist, and return the records. -/
def listApps (st : ManagerState) (w : DockerWorld) (now : Nat) :
    Option (List App × ManagerState) :=
  if w.pingOk = false then none
  else if w.listOk = false then none
  else
    let statuses := containerStatuses w.containers
    let apps1 := st.apps.map (fun p =>
      (p.1, { p.2 with
               Status := (lookupA statuses p.1).getD statusUnknown,
               UpdatedAt := now }))
    some (apps1.map (fun p => p.2), { apps := apps1, saved := apps1 })

/-- Whether the runtime reports a container as currently running.
Modelled from the spec: the status text does not indicate an exited
state; the repository delegates this decision to the Docker daemon. -/
def containerRunning (c : Container) : Bool :=
  !(statusIndicatesExited c.Status)

/-- The daemon side of `ContainerRemove`.
Modelled from the spec: removal fails when the daemon call itself
fails, when no container of that name exists, or when the container is
currently running and `force` is not set; otherwise the named container
is removed. -/
def daemonRemoveContainer (w : DockerWorld) (name : String) (force : Bool) :
    DockerWorld × Bool :=
  if w.removeOk = false then (w, false)
  else if containerExists w.containers name = false then (w, false)
  else if force = false ∧
      w.containers.any (fun c => decide (c.Name = name) && containerRunning c) then
    (w, false)
  else
    ({ w with containers := w.containers.filter (fun c => ¬ c.Name = name) }, true)

/-- `Manager.RemoveApp`: availability probe, registry existence check,
container removal (forced or not), then registry delete and persist. -/
def removeApp (st : ManagerState) (w : DockerWorld) (name : String)
    (force : Bool) : ManagerState × DockerWorld × Option AppErr :=
  if w.pingOk = false then (st, w, some .dockerUnavailable)
  else if hasKeyA st.apps name = false then (st, w, some .notFound)
  else
    match daemonRemoveContainer w ("finks-" ++ name) force with
    | (w1, false) => (st, w1, some .removeFailed)
    | (w1, true) =>
      let apps1 := eraseA st.apps name
      ({ apps := apps1, saved := apps1 }, w1, none)

/-! ## Network provisioner (`docker.Client.EnsureNetwork` and the
network calls of the Docker client). -/

structure NetworkInfo where
  ID : String
  Name : String
  Driver : String
  Labels : List (String × String)
deriving DecidableEq

/-- The daemon's network table plus the counter from which it mints
fresh network identifiers. -/
structure NetworkWorld where
  networks : List NetworkInfo
  nextId : Nat
deriving DecidableEq

/-- `Client.NetworkExists`: name scan over `NetworkList`. -/
def networkExists (w : NetworkWorld) (name : String) : Bool :=
  w.networks.any (fun n => n.Name = name)

/-- `Client.GetNetworkInfo`: `NetworkInspect` by name. -/
def getNetworkInfo (w : NetworkWorld) (name : String) : Option NetworkInfo :=
  w.networks.find? (fun n => n.Name = name)

/-- `Client.CreateNetwork`: the daemon records the network and returns
a fresh identifier. -/
def createNetwork (w : NetworkWorld) (name driver : String)
    (labels : List (String × String)) : NetworkWorld × String :=
  let id := "net-" ++ toString w.nextId
  ({ networks := w.networks ++
      [{ ID := id, Name := name, Driver := driver, Labels := labels }],
     nextId := w.nextId + 1 }, id)

/-- `Client.EnsureNetwork`: check existence first; return the existing
network's identifier unchanged when found, otherwise create and return
the new identifier.  `none` is the (here unreachable) inspect-failure
error path. -/
def ensureNetwork (w : NetworkWorld) (name driver : String)
    (labels : List (String × String)) : NetworkWorld × Option String :=
  if networkExists w name then
    match getNetworkInfo w name with
    | some info => (w, some info.ID)
    | none => (w, none)
  else
    let r := createNetwork w name driver labels
    (r.1, some r.2)

/-- **C1.** When the runtime container is created successfully but
starting it fails, `DeployApp` removes the just-created container
before returning the start error: the returned world carries the
original container list (no partially created container remains), the
registry is untouched, and the surfaced error is the start error. -/
theorem deployApp_rollback_on_start_failure (st : ManagerState) (w : DockerWorld)
    (now : Nat) (name image port : String) (envVars : List (String × String))
    (volumes : List String)
    (hping : w.pingOk = true) (hlist : w.listOk = true)
    (hex : containerExists w.containers ("finks-" ++ name) = false)
    (hpull : w.pullOk = true) (hport : w.portSpecOk = true)
    (hcreate : w.createOk = true) (hstart : w.startOk = false)
    (hremove : w.removeOk = true) :
    deployApp st w now name image port envVars volumes
      = (st, w, some (.runFailed .startFailed)) := by
  unfold deployApp runContainer
  simp [hping, hlist, hex, hpull, hport, hcreate, hstart, hremove]

/-- **C2.** With the daemon reachable and the listing call succeeding,
`DeployApp` fails with AlreadyExists exactly when the live runtime has
a container under the derived identifier `finks-` ++ name — for every
registry state, so independently of registry contents. -/
theorem deployApp_alreadyExists_iff (st : ManagerState) (w : DockerWorld)
    (now : Nat) (name image port : String) (envVars : List (String × String))
    (volumes : List String)
    (hping : w.pingOk = true) (hlist : w.listOk = true) :
    ((deployApp st w now name image port envVars volumes).2.2
        = some .alreadyExists
      ↔ containerExists w.containers ("finks-" ++ name) = true) := by
  unfold deployApp
  by_cases hex : containerExists w.containers ("finks-" ++ name) = true
  · simp [hping, hlist, hex]
  · simp only [Bool.not_eq_true] at hex
    simp only [hping, hlist, hex]
    by_cases hpull : w.pullOk = false
    · simp [hpull, hex]
    · simp only [Bool.not_eq_false] at hpull
      simp only [hpull]
      rcases hrun : runContainer w
          { Name := "finks-" ++ name, Image := image, Port := port,
            EnvVars := envVars, Volumes := volumes } with ⟨w1, e⟩
      cases e <;> simp [hrun, hex]

/-- **C8.** When the image pull fails, `DeployApp` returns the pull
error having committed no state: the in-memory and persisted registry
and the runtime container list are exactly as before. -/
theorem deployApp_pull_failure_frame (st : ManagerState) (w : DockerWorld)
    (now : Nat) (name image port : String) (envVars : List (String × String))
    (volumes : List String)
    (hping : w.pingOk = true) (hlist : w.listOk = true)
    (hex : containerExists w.containers ("finks-" ++ name) = false)
    (hpull : w.pullOk = false) :
    deployApp st w now name image port envVars volumes
      = (st, w, some .imagePullFailed) := by
  unfold deployApp
  simp [hping, hlist, hex, hpull]

/-- **C9.** For a registered app, `RemoveApp` with `force = false`
fails while the runtime reports the app's container as running and the
registry entry is retained; with `force = true` it proceeds to remove
the container, and on success the registry entry is deleted and the
registry is persisted. -/
theorem removeApp_force_spec (st : ManagerState) (w : DockerWorld) (name : String)
    (hping : w.pingOk = true) (hreg : hasKeyA st.apps name = true) :
    ((∃ c ∈ w.containers, c.Name = "finks-" ++ name ∧ containerRunning c = true) →
        removeApp st w name false = (st, w, some .removeFailed)) ∧
    (w.removeOk = true →
      containerExists w.containers ("finks-" ++ name) = true →
        removeApp st w name true
          = ({ apps := eraseA st.apps name, saved := eraseA st.apps name },
             { w with containers :=
                w.containers.filter (fun c => ¬ c.Name = "finks-" ++ name) },
             none)) := by
  constructor
  · rintro ⟨c, hc, hcn, hcr⟩
    have hex : containerExists w.containers ("finks-" ++ name) = true := by
      unfold containerExists
      rw [List.any_eq_true]
      exact ⟨c, hc, by simp [hcn]⟩
    have hany : w.containers.any
        (fun c => decide (c.Name = "finks-" ++ name) && containerRunning c) = true := by
      rw [List.any_eq_true]
      exact ⟨c, hc, by simp [hcn, hcr]⟩
    unfold removeApp daemonRemoveContainer
    by_cases hrm : w.removeOk = false
    · simp [hping, hreg, hrm]
    · simp only [Bool.not_eq_false] at hrm
      simp [hping, hreg, hrm, hex, hany]
  · intro hrm hex
    unfold removeApp daemonRemoveContainer
    simp [hping, hreg, hrm, hex]

/-- **C4.** `EnsureNetwork` is an idempotent get-or-create: when a
network of the name exists it returns the existing network's
identifier and leaves the world (driver and labels included)
unchanged; when none exists it creates the network and returns the new
identifier; and a second call returns the same identifier as the
first. -/
theorem ensureNetwork_get_or_create (w : NetworkWorld) (name driver : String)
    (labels : List (String × String)) :
    (networkExists w name = true →
        (ensureNetwork w name driver labels).1 = w ∧
        ∃ info, getNetworkInfo w name = some info ∧
          (ensureNetwork w name driver labels).2 = some info.ID) ∧
    (networkExists w name = false →
        (ensureNetwork w name driver labels).1.networks
            = w.networks ++
              [{ ID := "net-" ++ toString w.nextId, Name := name,
                 Driver := driver, Labels := labels }] ∧
        (ensureNetwork w name driver labels).2
            = some ("net-" ++ toString w.nextId)) ∧
    (ensureNetwork (ensureNetwork w name driver labels).1 name driver labels).2
        = (ensureNetwork w name driver labels).2 := by
  refine ⟨?_, ?_, ?_⟩
  · intro hex
    have hinfo : (getNetworkInfo w name).isSome = true := by
      unfold getNetworkInfo
      rw [List.find?_isSome]
      unfold networkExists at hex
      rw [List.any_eq_true] at hex
      exact hex
    rcases hsome : getNetworkInfo w name with _ | info
    · rw [hsome] at hinfo; exact absurd hinfo (by simp)
    · unfold ensureNetwork
      rw [if_pos hex, hsome]
      exact ⟨rfl, info, rfl, rfl⟩
  · intro hex
    unfold ensureNetwork
    rw [if_neg (by simp [hex])]
    exact ⟨rfl, rfl⟩
  · by_cases hex : networkExists w name = true
    · have hinfo : (getNetworkInfo w name).isSome = true := by
        unfold getNetworkInfo
        rw [List.find?_isSome]
        unfold networkExists at hex
        rw [List.any_eq_true] at hex
        exact hex
      rcases hsome : getNetworkInfo w name with _ | info
      · rw [hsome] at hinfo; exact absurd hinfo (by simp)
      · unfold ensureNetwork
        rw [if_pos hex, hsome, if_pos hex, hsome]
    · simp only [Bool.not_eq_true] at hex
      have h1 : ensureNetwork w name driver labels
          = ({ networks := w.networks ++
                [{ ID := "net-" ++ toString w.nextId, Name := name,
                   Driver := driver, Labels := labels }],
               nextId := w.nextId + 1 },
             some ("net-" ++ toString w.nextId)) := by
        unfold ensureNetwork createNetwork
        rw [if_neg (by simp [hex])]
      rw [h1]
      have hex2 : networkExists
          { networks := w.networks ++
              [{ ID := "net-" ++ toString w.nextId, Name := name,
                 Driver := driver, Labels := labels }],
            nextId := w.nextId + 1 } name = true := by
        unfold networkExists
        rw [List.any_eq_true]
        exact ⟨{ ID := "net-" ++ toString w.nextId, Name := name,
                 Driver := driver, Labels := labels },
               by simp, by simp⟩
      have hfind : getNetworkInfo
          { networks := w.networks ++
              [{ ID := "net-" ++ toString w.nextId, Name := name,
                 Driver := driver, Labels := labels }],
            nextId := w.nextId + 1 } name
          = some { ID := "net-" ++ toString w.nextId, Name := name,
                   Driver := driver, Labels := labels } := by
        unfold getNetworkInfo
        simp only [List.find?_append]
        rw [List.find?_eq_none.mpr]
        · simp [List.find?]
        · unfold networkExists at hex
          intro x hx
          by_contra hpx
          have : w.networks.any (fun n => n.Name = name) = true :=
            List.any_eq_true.mpr ⟨x, hx, by simpa using hpx⟩
          rw [hex] at this
          exact Bool.noConfusion this
      unfold ensureNetwork
      rw [if_pos hex2, hfind]


theorem cutPrefix_eq_some_iff {s pre r : String} :
    cutPrefix s pre = some r ↔ s = pre ++ r := by
  unfold cutPrefix
  constructor
  · intro h
    split at h
    · rename_i hp
      rw [List.isPrefixOf_iff_prefix] at hp
      obtain ⟨u, hu⟩ := hp
      injection h with h
      subst h
      apply String.ext
      rw [String.data_append]
      change s.data = pre.data ++ s.data.drop pre.data.length
      rw [← hu, List.drop_left]
    · exact absurd h (by simp)
  · intro h
    subst h
    have hp : pre.data.isPrefixOf (pre ++ r).data = true := by
      rw [List.isPrefixOf_iff_prefix, String.data_append]
      exact List.prefix_append pre.data r.data
    rw [if_pos hp]
    rw [String.data_append, List.drop_left]

theorem statuses_lookup_aux_none (n : String) :
    ∀ (cs : List Container), (∀ c ∈ cs, ¬ c.Name = "finks-" ++ n) →
    ∀ acc, lookupA (cs.foldl statusStep acc) n = lookupA acc n := by
  intro cs
  induction cs with
  | nil => intro _ acc; rfl
  | cons c cs ih =>
    intro hna acc
    rw [List.foldl_cons]
    rcases hcut : cutPrefix c.Name "finks-" with _ | m
    · have hstep : statusStep acc c = acc := by
        unfold statusStep
        rw [hcut]
      rw [hstep]
      exact ih (fun d hd => hna d (List.mem_cons_of_mem c hd)) acc
    · have hm : c.Name = "finks-" ++ m := cutPrefix_eq_some_iff.mp hcut
      have hmn : ¬ n = m := by
        intro he
        exact hna c (List.mem_cons_self c cs) (by rw [hm, he])
      have hstep : statusStep acc c
          = insertA acc m (if statusIndicatesExited c.Status then statusStopped
              else statusRunning) := by
        unfold statusStep
        rw [hcut]
      rw [hstep]
      rw [ih (fun d hd => hna d (List.mem_cons_of_mem c hd)) _]
      rw [lookupA_insertA, if_neg hmn]

theorem statuses_lookup_aux_found (n : String) (c : Container) :
    ∀ (cs : List Container), (cs.map Container.Name).Nodup → c ∈ cs →
    c.Name = "finks-" ++ n →
    ∀ acc, lookupA (cs.foldl statusStep acc) n
      = some (if statusIndicatesExited c.Status then statusStopped
              else statusRunning) := by
  intro cs
  induction cs with
  | nil => intro _ hc; cases hc
  | cons d cs ih =>
    intro hnodup hc hn acc
    rw [List.foldl_cons]
    rcases List.mem_cons.mp hc with rfl | hc2
    · have hcut : cutPrefix c.Name "finks-" = some n := cutPrefix_eq_some_iff.mpr hn
      have hstep : statusStep acc c
          = insertA acc n (if statusIndicatesExited c.Status then statusStopped
              else statusRunning) := by
        unfold statusStep
        rw [hcut]
      rw [hstep]
      have hrest : ∀ e ∈ cs, ¬ e.Name = "finks-" ++ n := by
        intro e he hee
        have hmem : c.Name ∈ cs.map Container.Name := by
          rw [hn, ← hee]
          exact List.mem_map_of_mem Container.Name he
        exact (List.nodup_cons.mp hnodup).1 hmem
      rw [statuses_lookup_aux_none n cs hrest _]
      rw [lookupA_insertA, if_pos rfl]
    · have hd : ¬ d.Name = "finks-" ++ n := by
        intro he
        have hmem : c.Name ∈ cs.map Container.Name :=
          List.mem_map_of_mem Container.Name hc2
        rw [hn, ← he] at hmem
        exact (List.nodup_cons.mp hnodup).1 hmem
      exact ih (List.nodup_cons.mp hnodup).2 hc2 hn _

theorem containerStatuses_lookup_none (cs : List Container) (n : String)
    (h : ∀ c ∈ cs, ¬ c.Name = "finks-" ++ n) :
    lookupA (containerStatuses cs) n = none := by
  unfold containerStatuses
  rw [statuses_lookup_aux_none n cs h]
  rfl

theorem containerStatuses_lookup_found (cs : List Container) (n : String)
    (c : Container) (hnodup : (cs.map Container.Name).Nodup) (hc : c ∈ cs)
    (hn : c.Name = "finks-" ++ n) :
    lookupA (containerStatuses cs) n
      = some (if statusIndicatesExited c.Status then statusStopped
              else statusRunning) :=
  statuses_lookup_aux_found n c cs hnodup hc hn []


/-- **C3.** For every registry entry processed by `ListApps` (container
names being unique in the runtime), the reconciled status is Unknown
when no runtime container whose prefix-stripped name equals the
entry's name exists, Stopped when such a container exists and its
status text contains an exited indicator case-insensitively, and
Running otherwise — and the reconciled registry is persisted as part
of the call. -/
theorem listApps_reconciles_status (st : ManagerState) (w : DockerWorld)
    (now : Nat) (hping : w.pingOk = true) (hlist : w.listOk = true)
    (hnodup : (w.containers.map Container.Name).Nodup) :
    ∃ res st2, listApps st w now = some (res, st2) ∧
      st2.saved = st2.apps ∧
      ∀ name app, (name, app) ∈ st.apps →
        ((∀ c ∈ w.containers, ¬ c.Name = "finks-" ++ name) →
            (name, { app with Status := statusUnknown, UpdatedAt := now })
              ∈ st2.apps) ∧
        (∀ c ∈ w.containers, c.Name = "finks-" ++ name →
            statusIndicatesExited c.Status = true →
            (name, { app with Status := statusStopped, UpdatedAt := now })
              ∈ st2.apps) ∧
        (∀ c ∈ w.containers, c.Name = "finks-" ++ name →
            statusIndicatesExited c.Status = false →
            (name, { app with Status := statusRunning, UpdatedAt := now })
              ∈ st2.apps) := by
  unfold listApps
  rw [if_neg (by rw [hping]; exact Bool.noConfusion),
    if_neg (by rw [hlist]; exact Bool.noConfusion)]
  refine ⟨_, _, rfl, rfl, ?_⟩
  intro name app hmem
  have hmapped := List.mem_map_of_mem
    (fun p : String × App => (p.1,
      { p.2 with
        Status := (lookupA (containerStatuses w.containers) p.1).getD statusUnknown,
        UpdatedAt := now })) hmem
  dsimp only at hmapped
  refine ⟨?_, ?_, ?_⟩
  · intro hno
    have hl := containerStatuses_lookup_none w.containers name hno
    simp only [hl, Option.getD_none] at hmapped
    exact hmapped
  · intro c hc hcn hex
    have hl := containerStatuses_lookup_found w.containers name c hnodup hc hcn
    rw [hex, if_pos rfl] at hl
    simp only [hl, Option.getD_some] at hmapped
    exact hmapped
  · intro c hc hcn hex
    have hl := containerStatuses_lookup_found w.containers name c hnodup hc hcn
    rw [hex] at hl
    rw [if_neg (by exact Bool.noConfusion)] at hl
    simp only [hl, Option.getD_some] at hmapped
    exact hmapped

/-- **C10.** `ListApps` preserves the registry's key set: it returns
exactly one record per pre-existing entry, inserts no entry for
unregistered runtime containers, deletes nothing, and rewrites only
the status and timestamp fields of existing entries. -/
theorem listApps_preserves_registry (st : ManagerState) (w : DockerWorld)
    (now : Nat) (hping : w.pingOk = true) (hlist : w.listOk = true) :
    ∃ res st2, listApps st w now = some (res, st2) ∧
      res.length = st.apps.length ∧
      st2.apps.map Prod.fst = st.apps.map Prod.fst ∧
      st2.saved = st2.apps ∧
      ∀ name app, (name, app) ∈ st.apps →
        ∃ app2, (name, app2) ∈ st2.apps ∧
          app2.Name = app.Name ∧ app2.Image = app.Image ∧
          app2.Port = app.Port ∧ app2.EnvVars = app.EnvVars ∧
          app2.Volumes = app.Volumes ∧ app2.CreatedAt = app.CreatedAt := by
  unfold listApps
  rw [if_neg (by rw [hping]; exact Bool.noConfusion),
    if_neg (by rw [hlist]; exact Bool.noConfusion)]
  refine ⟨_, _, rfl, ?_, ?_, rfl, ?_⟩
  · rw [List.length_map, List.length_map]
  · rw [List.map_map]
    rfl
  · intro name app hmem
    refine ⟨{ app with
        Status := (lookupA (containerStatuses w.containers) name).getD statusUnknown,
        UpdatedAt := now }, ?_, rfl, rfl, rfl, rfl, rfl, rfl⟩
    have hmapped := List.mem_map_of_mem
      (fun p : String × App => (p.1,
        { p.2 with
          Status := (lookupA (containerStatuses w.containers) p.1).getD statusUnknown,
          UpdatedAt := now })) hmem
    dsimp only at hmapped
    exact hmapped

/-! ## Concrete instantiations of the conditional theorems. -/

/-- C1 at a concrete world: create succeeds, start fails, cleanup
succeeds; the deploy surfaces the start error with no container and no
registry change. -/
theorem deployApp_rollback_witness :
    deployApp ⟨[], []⟩ ⟨[], true, true, true, true, true, false, true⟩ 0
        "web" "nginx:latest" "8080:80" [] []
      = (⟨[], []⟩, ⟨[], true, true, true, true, true, false, true⟩,
         some (.runFailed .startFailed)) :=
  deployApp_rollback_on_start_failure _ _ 0 "web" "nginx:latest" "8080:80" [] []
    rfl rfl (by decide) rfl rfl rfl rfl rfl

/-- C2 at a concrete world: empty registry, pre-existing runtime
container, deploy rejected with AlreadyExists. -/
theorem deployApp_alreadyExists_witness :
    (deployApp ⟨[], []⟩
        ⟨[⟨"finks-web", "nginx", "Up 1 second", "8080:80"⟩],
          true, true, true, true, true, true, true⟩ 0
        "web" "nginx" "" [] []).2.2 = some .alreadyExists :=
  (deployApp_alreadyExists_iff _ _ 0 "web" "nginx" "" [] [] rfl rfl).mpr
    (by decide)

/-- C8 at a concrete world: pull fails, nothing is committed. -/
theorem deployApp_pull_failure_witness :
    deployApp ⟨[], []⟩ ⟨[], true, true, false, true, true, true, true⟩ 0
        "web" "nginx" "" [] []
      = (⟨[], []⟩, ⟨[], true, true, false, true, true, true, true⟩,
         some .imagePullFailed) :=
  deployApp_pull_failure_frame _ _ 0 "web" "nginx" "" [] [] rfl rfl
    (by decide) rfl

/-- C9 at a concrete state: a registered app with a running container
is rejected without force and removed with force. -/
theorem removeApp_force_witness :
    removeApp
        ⟨[("web", ⟨"web", "nginx", "", [], [], "running", 0, 0⟩)],
          [("web", ⟨"web", "nginx", "", [], [], "running", 0, 0⟩)]⟩
        ⟨[⟨"finks-web", "nginx", "Up 2 hours", ""⟩],
          true, true, true, true, true, true, true⟩ "web" false
      = (⟨[("web", ⟨"web", "nginx", "", [], [], "running", 0, 0⟩)],
          [("web", ⟨"web", "nginx", "", [], [], "running", 0, 0⟩)]⟩,
         ⟨[⟨"finks-web", "nginx", "Up 2 hours", ""⟩],
          true, true, true, true, true, true, true⟩,
         some .removeFailed) ∧
    removeApp
        ⟨[("web", ⟨"web", "nginx", "", [], [], "running", 0, 0⟩)],
          [("web", ⟨"web", "nginx", "", [], [], "running", 0, 0⟩)]⟩
        ⟨[⟨"finks-web", "nginx", "Up 2 hours", ""⟩],
          true, true, true, true, true, true, true⟩ "web" true
      = (⟨[], []⟩, ⟨[], true, true, true, true, true, true, true⟩, none) := by
  have h := removeApp_force_spec
    ⟨[("web", ⟨"web", "nginx", "", [], [], "running", 0, 0⟩)],
      [("web", ⟨"web", "nginx", "", [], [], "running", 0, 0⟩)]⟩
    ⟨[⟨"finks-web", "nginx", "Up 2 hours", ""⟩],
      true, true, true, true, true, true, true⟩
    "web" rfl (by decide)
  refine ⟨h.1 ⟨⟨"finks-web", "nginx", "Up 2 hours", ""⟩,
    by decide, rfl, by decide⟩, ?_⟩
  have h2 := h.2 rfl (by decide)
  rw [h2]
  decide

/-- C4 at concrete worlds: creating returns the fresh identifier; a
pre-existing network is returned with the world unchanged. -/
theorem ensureNetwork_witness :
    (ensureNetwork ⟨[], 0⟩ "finks-traefik" "bridge" []).2 = some "net-0" ∧
    (ensureNetwork ⟨[⟨"net-7", "finks-traefik", "bridge", []⟩], 8⟩
        "finks-traefik" "bridge" []).1
      = ⟨[⟨"net-7", "finks-traefik", "bridge", []⟩], 8⟩ := by
  constructor
  · exact ((ensureNetwork_get_or_create ⟨[], 0⟩ "finks-traefik" "bridge"
      []).2.1 rfl).2
  · exact ((ensureNetwork_get_or_create
      ⟨[⟨"net-7", "finks-traefik", "bridge", []⟩], 8⟩ "finks-traefik" "bridge"
      []).1 (by decide)).1

/-- C3 at a concrete state: an exited runtime container heals the
entry's status to Stopped in the persisted registry. -/
theorem listApps_reconciles_witness :
    ∃ res st2, listApps
        ⟨[("web", ⟨"web", "nginx", "", [], [], "running", 0, 0⟩)],
          [("web", ⟨"web", "nginx", "", [], [], "running", 0, 0⟩)]⟩
        ⟨[⟨"finks-web", "nginx", "Exited (0) 2 hours ago", ""⟩],
          true, true, true, true, true, true, true⟩ 5 = some (res, st2) ∧
      ("web", ⟨"web", "nginx", "", [], [], statusStopped, 0, 5⟩) ∈ st2.apps := by
  obtain ⟨res, st2, heq, hsv, hall⟩ := listApps_reconciles_status
    ⟨[("web", ⟨"web", "nginx", "", [], [], "running", 0, 0⟩)],
      [("web", ⟨"web", "nginx", "", [], [], "running", 0, 0⟩)]⟩
    ⟨[⟨"finks-web", "nginx", "Exited (0) 2 hours ago", ""⟩],
      true, true, true, true, true, true, true⟩ 5 rfl rfl (by decide)
  refine ⟨res, st2, heq, ?_⟩
  exact (hall "web" ⟨"web", "nginx", "", [], [], "running", 0, 0⟩
    (by decide)).2.1 ⟨"finks-web", "nginx", "Exited (0) 2 hours ago", ""⟩
    (by decide) rfl (by decide)

/-- C10 at a concrete state: an empty runtime keeps exactly the
pre-existing registry key. -/
theorem listApps_preserves_witness :
    ∃ res st2, listApps
        ⟨[("web", ⟨"web", "nginx", "", [], [], "running", 0, 0⟩)],
          [("web", ⟨"web", "nginx", "", [], [], "running", 0, 0⟩)]⟩
        ⟨[], true, true, true, true, true, true, true⟩ 5 = some (res, st2) ∧
      res.length = 1 ∧ st2.apps.map Prod.fst = ["web"] := by
  obtain ⟨res, st2, heq, hlen, hkeys, hsv, hrec⟩ := listApps_preserves_registry
    ⟨[("web", ⟨"web", "nginx", "", [], [], "running", 0, 0⟩)],
      [("web", ⟨"web", "nginx", "", [], [], "running", 0, 0⟩)]⟩
    ⟨[], true, true, true, true, true, true, true⟩ 5 rfl rfl
  exact ⟨res, st2, heq, by rw [hlen]; rfl, by rw [hkeys]; rfl⟩

/-- C5 at a concrete app: the Managed-mode redirect router references
the scheme-redirect middleware. -/
theorem generateTraefikLabels_witness :
    lookupA (generateTraefikLabels ⟨"My App", "ex.com", "80", "", false⟩)
        ("traefik.http.routers." ++ (sanitizeName "My App" ++ "-redirect")
          ++ ".middlewares")
      = some "https-redirect" :=
  (generateTraefikLabels_mode_spec "My App" "ex.com" "80" "").2.2.2.2.2.1

end Finks
